import Mathlib

/-!
A shallow embedding of the agentic query-answering pipeline of the
`rag_debyes` repository (`src/app`): the context aggregator
(`app/agents/aggregator.py`), the query analyzer
(`app/agents/query_analyzer.py`), the query decomposer
(`app/agents/decomposer.py`), the answer synthesizer
(`app/agents/synthesizer.py`), the semantic retriever
(`app/retrieval/retriever.py`) and the `/query` endpoint handler
(`app/main.py`, `query_documents`).

Modelling conventions:
* Python floats are modelled as exact rationals (`ℚ`).
* Python strings are Lean `String`s; `len` of a Python string is the
  number of code points, matching `String.length`.
* JSON values produced by `json.loads` are modelled by the inductive
  type `PyValue` (JSON object keys are strings).
* A call to an external collaborator (language model, embedder, vector
  store) is modelled by an oracle value or oracle function supplied as
  an argument; a raised Python exception is an `Except.error` carrying
  the exception text.
* Python `dict`s preserve insertion order; they are modelled as
  association lists in insertion order, with Python's key-overwrite
  semantics (`dictSetPure`).
-/

namespace Rag

/-- A JSON-like Python value, as returned by `json.loads`. -/
inductive PyValue where
  | none : PyValue
  | bool (b : Bool) : PyValue
  | int (n : Int) : PyValue
  | str (s : String) : PyValue
  | list (l : List PyValue) : PyValue
  | dict (d : List (String × PyValue)) : PyValue

/-- A retrieved chunk, as built by `WeaviateVectorStore.search`
(`app/retrieval/vector_store.py`, lines 157-163): a Python dict with
keys `content`, `document_name`, `page_number`, `content_type`,
`similarity`.  The metadata fields are `Option`s because the consumers
(`aggregator.py`, `synthesizer.py`) access them with `dict.get` and a
default; `content` is accessed with mandatory indexing. -/
structure Chunk where
  content : String
  document_name : Option String := Option.none
  page_number : Option Int := Option.none
  content_type : Option String := Option.none
  similarity : Option ℚ := Option.none
  deriving DecidableEq, Repr

/-- The result map built by `retrieve_for_multiple_queries`: a Python
dict from sub-question to its retrieved chunks, in insertion order. -/
abbrev RMap := List (PyValue × List Chunk)

namespace ContextAggregator

/-- The sort key used at `aggregator.py` line 40:
`lambda x: x.get('similarity', 0)`. -/
def simKey (c : Chunk) : ℚ := c.similarity.getD 0

/-- `results_by_query.items()` flattened in iteration order
(the two nested `for` loops at `aggregator.py` lines 30-31). -/
def flattenChunks (results_by_query : RMap) : List Chunk :=
  results_by_query.flatMap Prod.snd

/-- The dedup loop of `aggregate` (`aggregator.py` lines 27-37):
walk the flattened chunks keeping the first occurrence of each
`content` string; `seen` is the `seen_content` set. -/
def dedupChunks : List Chunk → List String → List Chunk
  | [], _ => []
  | c :: rest, seen =>
    if c.content ∈ seen then dedupChunks rest seen
    else c :: dedupChunks rest (c.content :: seen)

/-- The order in which Python's stable `list.sort(key=..., reverse=True)`
arranges two chunks: higher similarity key first. -/
def simGE (a b : Chunk) : Prop := simKey b ≤ simKey a

instance : DecidableRel simGE := fun a b => inferInstanceAs (Decidable (simKey b ≤ simKey a))

instance : IsTotal Chunk simGE := ⟨fun a b => le_total (simKey b) (simKey a)⟩

instance : IsTrans Chunk simGE := ⟨fun _ _ _ h1 h2 => le_trans h2 h1⟩

/-- `all_chunks.sort(key=lambda x: x.get('similarity', 0), reverse=True)`
(`aggregator.py` line 40).  Python's sort is stable; a stable sort into
descending key order is realised by insertion sort with the relation
`simGE` (ties place the earlier element first). -/
def sortChunks (l : List Chunk) : List Chunk :=
  List.insertionSort simGE l

/-- The greedy packing loop of `aggregate` (`aggregator.py` lines
43-53): accumulate chunks while the running character total stays
within `max_chars`; the first chunk that would exceed it hits the
`else: break`, ending the loop. -/
def packChunks (max_chars : Nat) : List Chunk → Nat → List Chunk
  | [], _ => []
  | c :: rest, total_chars =>
    if total_chars + c.content.length ≤ max_chars then
      c :: packChunks max_chars rest (total_chars + c.content.length)
    else []

/-- The dedup stage of `aggregate`: flatten and keep first occurrences. -/
def dedupStage (results_by_query : RMap) : List Chunk :=
  dedupChunks (flattenChunks results_by_query) []

/-- The deduplicated chunks after the stable descending sort. -/
def sortStage (results_by_query : RMap) : List Chunk :=
  sortChunks (dedupStage results_by_query)

/-- `ContextAggregator.aggregate` (`aggregator.py` lines 13-57);
`max_context_tokens` is the constructor field (wired to 2048 in
`main.py`). -/
def aggregate (max_context_tokens : Nat) (results_by_query : RMap) : List Chunk :=
  packChunks (max_context_tokens * 4) (sortStage results_by_query) 0

/-- Total character count of a chunk list (the `total_chars` measure). -/
def sumLen (l : List Chunk) : Nat :=
  (l.map (fun c => c.content.length)).sum

/-- `str(page_num)` where `page_num = chunk.get('page_number', 'N/A')`. -/
def pageStr (c : Chunk) : String :=
  match c.page_number with
  | Option.some n => toString n
  | Option.none => "N/A"

/-- One `[Source i] ...` block of `format_context`
(`aggregator.py` lines 74-82). -/
def renderPart (i : Nat) (c : Chunk) : String :=
  "[Source " ++ toString i ++ "] Document: " ++ c.document_name.getD "Unknown"
    ++ ", Page: " ++ pageStr c ++ ", Type: " ++ c.content_type.getD "text"
    ++ "\n" ++ c.content

/-- The `context_parts` list built by the `enumerate(chunks, 1)` loop of
`format_context`. -/
def contextParts : Nat → List Chunk → List String
  | _, [] => []
  | i, c :: cs => renderPart i c :: contextParts (i + 1) cs

/-- `ContextAggregator.format_context` (`aggregator.py` lines 59-86). -/
def format_context (chunks : List Chunk) : String :=
  if chunks.isEmpty then "No relevant context found."
  else String.intercalate "\n\n---\n\n" (contextParts 1 chunks)

end ContextAggregator

/-- Lookup in a JSON object by key (`result.get(k)` / `result[k]` on a
Python dict whose keys are strings): value of the first matching key. -/
def pyDictGet (d : List (String × PyValue)) (k : String) : Option PyValue :=
  (d.find? (fun p => p.1 == k)).map Prod.snd

/-- Python truthiness (`if v:`) of a JSON-like value. -/
def pyTruthy : PyValue → Bool
  | .none => false
  | .bool b => b
  | .int n => n != 0
  | .str s => s != ""
  | .list l => !l.isEmpty
  | .dict d => !d.isEmpty

/-- Whether `len(v)` succeeds for a JSON-like value (strings, lists and
dicts are sized; `None`, booleans and numbers raise `TypeError`). -/
def pyHasLen : PyValue → Bool
  | .str _ => true
  | .list _ => true
  | .dict _ => true
  | _ => false

/-- Iterating a JSON-like value (`for x in v`): strings yield their
characters as one-character strings, lists their elements, dicts their
keys; other values raise `TypeError`. -/
def pyIter : PyValue → Except String (List PyValue)
  | .str s => .ok (s.toList.map (fun ch => .str (String.mk [ch])))
  | .list l => .ok l
  | .dict d => .ok (d.map (fun p => .str p.1))
  | _ => .error "TypeError: object is not iterable"

/-- Python `dict`-key equality restricted to hashable JSON-like values
(`True == 1`, `False == 0`; unhashable values never reach a dict key). -/
def pyKeyEq : PyValue → PyValue → Bool
  | .none, .none => true
  | .bool a, .bool b => a == b
  | .bool a, .int n => (if a then (1 : Int) else 0) == n
  | .int n, .bool a => n == (if a then (1 : Int) else 0)
  | .int m, .int n => m == n
  | .str s, .str t => s == t
  | _, _ => false

/-- Whether a JSON-like value is hashable (usable as a Python dict key). -/
def pyHashable : PyValue → Bool
  | .list _ => false
  | .dict _ => false
  | _ => true

/-- `m[k] = v` on a Python dict: if an equal key is present, the
existing key keeps its position and original key object and only the
value is replaced; otherwise the pair is appended. -/
def dictSetPure (m : RMap) (k : PyValue) (v : List Chunk) : RMap :=
  if m.any (fun p => pyKeyEq p.1 k) then
    m.map (fun p => if pyKeyEq p.1 k then (p.1, v) else p)
  else m ++ [(k, v)]

/-- `m[k] = v` including the `TypeError` raised on unhashable keys. -/
def dictSet (m : RMap) (k : PyValue) (v : List Chunk) : Except String RMap :=
  if pyHashable k then .ok (dictSetPure m k v) else .error "TypeError: unhashable type"

/-- `k in m` / value lookup on the modelled Python dict. -/
def dictLookup (m : RMap) (k : PyValue) : Option (List Chunk) :=
  (m.find? (fun p => pyKeyEq p.1 k)).map Prod.snd

/-- Outcome of one `chain.invoke(...)` call followed by
`json.loads(response.content)`: either the call itself raised
(`CallOutcome.exn`), or it returned content whose JSON parse either
failed (`.content (.error _)`, a `json.JSONDecodeError`) or produced a
value (`.content (.ok v)`). -/
inductive CallOutcome where
  | exn (msg : String) : CallOutcome
  | content (parsed : Except String PyValue) : CallOutcome

namespace QueryAnalyzer

/-- The fallback dict `{"is_complex": False, "reasoning": r}` returned
by the two `except` branches of `analyze`. -/
def mkDefault (r : String) : PyValue :=
  .dict [("is_complex", .bool false), ("reasoning", .str r)]

/-- `QueryAnalyzer.analyze` (`query_analyzer.py` lines 31-59).  On the
success path the parsed value is returned unchanged, but only after the
log line has subscripted `result['is_complex']` and `result['reasoning']`;
a non-dict value or a missing key raises there (`TypeError`/`KeyError`)
and falls into the generic `except Exception` branch. -/
def analyze (o : CallOutcome) : PyValue :=
  match o with
  | .exn msg => mkDefault ("Error: " ++ msg)
  | .content (.error _) => mkDefault "Failed to parse response"
  | .content (.ok (.dict d)) =>
    match pyDictGet d "is_complex" with
    | Option.none => mkDefault "Error: 'is_complex'"
    | Option.some _ =>
      match pyDictGet d "reasoning" with
      | Option.none => mkDefault "Error: 'reasoning'"
      | Option.some _ => .dict d
  | .content (.ok _) => mkDefault "Error: TypeError"

end QueryAnalyzer

namespace QueryDecomposer

/-- `QueryDecomposer.decompose` (`decomposer.py` lines 30-61).  The
success path reads `result.get("sub_questions", [])` (raising
`AttributeError` on a non-dict, caught by `except Exception`), then the
log line calls `len(sub_questions)` (raising `TypeError` on an unsized
value, likewise caught), and finally returns `sub_questions` unchanged. -/
def decompose (query : String) (o : CallOutcome) : PyValue :=
  match o with
  | .exn _ => .list [.str query]
  | .content (.error _) => .list [.str query]
  | .content (.ok (.dict d)) =>
    let sub_questions := (pyDictGet d "sub_questions").getD (.list [])
    if pyHasLen sub_questions then sub_questions else .list [.str query]
  | .content (.ok _) => .list [.str query]

end QueryDecomposer

namespace AnswerSynthesizer

/-- Python `round(x, 3)` idealised over exact rationals: scale by
`10^3`, round half to even, scale back. -/
def round3 (x : ℚ) : ℚ :=
  let y := x * 1000
  let n := ⌊y⌋
  let k : Int :=
    if y - n < 1 / 2 then n
    else if y - n > 1 / 2 then n + 1
    else if n % 2 = 0 then n else n + 1
  (k : ℚ) / 1000

/-- One entry of the `sources` list built by `_format_sources`
(`synthesizer.py` lines 74-86); `page_number = Option.none` renders the
Python default string `'N/A'`. -/
structure SourceEntry where
  document_name : String
  page_number : Option Int
  content_type : String
  similarity : ℚ
  deriving DecidableEq, Repr

/-- The result dict of `synthesize`. -/
structure SynthesisResult where
  answer : String
  sources : List SourceEntry
  context_used : Nat
  deriving DecidableEq, Repr

/-- The projection applied to each chunk by `_format_sources`. -/
def projSource (c : Chunk) : SourceEntry :=
  { document_name := c.document_name.getD "Unknown"
    page_number := c.page_number
    content_type := c.content_type.getD "text"
    similarity := round3 ((ContextAggregator.simKey) c) }

/-- `AnswerSynthesizer._format_sources` (`synthesizer.py` lines 74-86). -/
def formatSources (chunks : List Chunk) : List SourceEntry :=
  chunks.map projSource

/-- `AnswerSynthesizer.synthesize` (`synthesizer.py` lines 32-72); the
language-model call is the oracle `llm : context → question → Except`.
The `except Exception` branch yields the degraded result. -/
def synthesize (llm : String → String → Except String String)
    (question context : String) (sources : List Chunk) : SynthesisResult :=
  match llm context question with
  | .ok content =>
    { answer := content.trim
      sources := formatSources sources
      context_used := sources.length }
  | .error msg =>
    { answer := "Error generating answer: " ++ msg
      sources := []
      context_used := 0 }

end AnswerSynthesizer

namespace SemanticRetriever

/-- `SemanticRetriever` (`retriever.py`): the embedder and vector store
are external collaborators, modelled as oracle functions that may raise
(`Except.error`). -/
structure Retriever where
  embed : PyValue → Except String (List ℚ)
  search : List ℚ → Nat → Option String → ℚ → Except String (List Chunk)
  top_k : Nat
  similarity_threshold : ℚ

/-- `k = top_k or self.top_k` (`retriever.py` line 33): Python `or`
falls back to the default when `top_k` is `None` or `0`. -/
def resolveTopK (r : Retriever) (top_k : Option Nat) : Nat :=
  match top_k with
  | Option.some n => if n = 0 then r.top_k else n
  | Option.none => r.top_k

/-- `SemanticRetriever.retrieve` (`retriever.py` lines 16-48): embed
the query, then search; no fault is caught. -/
def retrieve (r : Retriever) (query : PyValue) (top_k : Option Nat)
    (document_filter : Option String) : Except String (List Chunk) := do
  let query_embedding ← r.embed query
  r.search query_embedding (resolveTopK r top_k) document_filter r.similarity_threshold

/-- The `for query in queries` loop of `retrieve_for_multiple_queries`
(`retriever.py` lines 69-75), threading the `results_by_query` dict. -/
def rfmqLoop (r : Retriever) (top_k : Option Nat) (document_filter : Option String) :
    List PyValue → RMap → Except String RMap
  | [], m => .ok m
  | q :: qs, m => do
    let results ← retrieve r q top_k document_filter
    let m' ← dictSet m q results
    rfmqLoop r top_k document_filter qs m'

/-- `SemanticRetriever.retrieve_for_multiple_queries` (`retriever.py`
lines 50-79); `queries` is iterated with `for query in queries`, so a
non-iterable argument raises before any retrieval. -/
def retrieve_for_multiple_queries (r : Retriever) (queries : PyValue)
    (top_k : Option Nat) (document_filter : Option String) : Except String RMap := do
  let qs ← pyIter queries
  rfmqLoop r top_k document_filter qs []

end SemanticRetriever

/-- `value[key]` on a JSON-like value: `KeyError` on a dict without the
key, `TypeError` on a non-dict. -/
def pyGetItem (v : PyValue) (k : String) : Except String PyValue :=
  match v with
  | .dict d =>
    match pyDictGet d k with
    | Option.some x => .ok x
    | Option.none => .error ("KeyError: '" ++ k ++ "'")
  | _ => .error "TypeError: value is not subscriptable"

/-- Pydantic validation of the `is_complex: bool` field of
`QueryResponse` (`app/models.py`): booleans pass, the ints `0`/`1` and
the usual boolean-ish strings are coerced, everything else raises a
`ValidationError`. -/
def pydanticBool : PyValue → Except String Bool
  | .bool b => .ok b
  | .int n =>
    if n = 0 then .ok false
    else if n = 1 then .ok true
    else .error "ValidationError: is_complex"
  | .str s =>
    if s.toLower ∈ ["true", "t", "yes", "on", "y", "1"] then .ok true
    else if s.toLower ∈ ["false", "f", "no", "off", "n", "0"] then .ok false
    else .error "ValidationError: is_complex"
  | _ => .error "ValidationError: is_complex"

/-- Pydantic validation of the `sub_questions: Optional[List[str]]`
field of `QueryResponse`: a list whose elements are all strings. -/
def pydanticListStr : PyValue → Except String (List String)
  | .list l =>
    l.mapM (fun v =>
      match v with
      | .str s => .ok s
      | _ => .error "ValidationError: sub_questions")
  | _ => .error "ValidationError: sub_questions"

/-- The `QueryResponse` Pydantic model (`app/models.py`), with its
`metadata` dict split into the two entries `query_documents` puts in it. -/
structure QueryResponse where
  question : String
  answer : String
  is_complex : Bool
  sub_questions : Option (List String)
  sources : List AnswerSynthesizer.SourceEntry
  total_chunks_retrieved : Nat
  analysis_reasoning : PyValue

/-- The collaborators wired into the pipeline at startup
(`main.py` `startup_event`): one `CallOutcome` per language-model call
of this query cycle, the retriever's external services, the
synthesizer's language-model call, and the aggregator budget
(`ContextAggregator(max_context_tokens=2048)`). -/
structure Oracles where
  analyzeOutcome : CallOutcome
  decomposeOutcome : CallOutcome
  retriever : SemanticRetriever.Retriever
  synthLLM : String → String → Except String String
  max_context_tokens : Nat

/-- The body of the `try:` block of the `/query` handler
`query_documents` (`main.py` lines 207-249): any raised fault is an
`Except.error` carrying the exception text. -/
def queryBody (o : Oracles) (question : String)
    (document_filter : Option String) : Except String QueryResponse := (do
    let analysis := QueryAnalyzer.analyze o.analyzeOutcome
    let is_complex ← pyGetItem analysis "is_complex"
    let sub_questions : PyValue :=
      if pyTruthy is_complex then QueryDecomposer.decompose question o.decomposeOutcome
      else .list [.str question]
    let results_by_query ←
      SemanticRetriever.retrieve_for_multiple_queries o.retriever sub_questions
        Option.none document_filter
    let aggregated_chunks := ContextAggregator.aggregate o.max_context_tokens results_by_query
    let formatted_context := ContextAggregator.format_context aggregated_chunks
    let synthesis_result :=
      AnswerSynthesizer.synthesize o.synthLLM question formatted_context aggregated_chunks
    let analysis_reasoning ← pyGetItem analysis "reasoning"
    let icValidated ← pydanticBool is_complex
    let subqsValidated ←
      if pyTruthy is_complex then Option.some <$> pydanticListStr sub_questions
      else .ok Option.none
    .ok { question := question
          answer := synthesis_result.answer
          is_complex := icValidated
          sub_questions := subqsValidated
          sources := synthesis_result.sources
          total_chunks_retrieved := aggregated_chunks.length
          analysis_reasoning := analysis_reasoning }
    : Except String QueryResponse)

/-- The `/query` handler `query_documents` (`main.py` lines 199-254):
runs `queryBody` inside `try:`; the `except Exception` clause converts
any raised fault into `HTTPException(500, "Query failed: ...")`,
modelled as `Except.error (500, ...)`. -/
def queryDocuments (o : Oracles) (question : String)
    (document_filter : Option String) : Except (Nat × String) QueryResponse :=
  match queryBody o question document_filter with
  | .ok r => .ok r
  | .error e => .error (500, "Query failed: " ++ e)

/-! ### Reduction lemmas for the `Except` monad -/

@[simp] theorem except_bind_ok {α β ε : Type} (a : α) (f : α → Except ε β) :
    (Except.ok a >>= f) = f a := rfl

@[simp] theorem except_bind_error {α β ε : Type} (e : ε) (f : α → Except ε β) :
    ((Except.error e : Except ε α) >>= f) = Except.error e := rfl

/-! ### Lemmas about the aggregator -/

namespace ContextAggregator

theorem sumLen_nil : sumLen [] = 0 := rfl

theorem sumLen_cons (c : Chunk) (l : List Chunk) :
    sumLen (c :: l) = c.content.length + sumLen l := by
  simp [sumLen]

/-- Every chunk kept by the dedup loop was unseen on entry, and is the
first chunk of the input with its `content`. -/
theorem mem_dedupChunks : ∀ {l : List Chunk} {seen : List String} {c : Chunk},
    c ∈ dedupChunks l seen →
    c.content ∉ seen ∧ l.find? (fun x => x.content == c.content) = Option.some c := by
  intro l
  induction l with
  | nil => intro seen c h; simp [dedupChunks] at h
  | cons d l ih =>
    intro seen c h
    by_cases hd : d.content ∈ seen
    · simp only [dedupChunks, if_pos hd] at h
      obtain ⟨h1, h2⟩ := ih h
      have hne : (d.content == c.content) = false := by
        simp only [beq_eq_false_iff_ne]
        intro he; exact h1 (by rw [← he]; exact hd)
      exact ⟨h1, by rw [List.find?_cons, hne]; exact h2⟩
    · simp only [dedupChunks, if_neg hd, List.mem_cons] at h
      rcases h with rfl | h
      · exact ⟨hd, by rw [List.find?_cons, beq_self_eq_true]⟩
      · obtain ⟨h1, h2⟩ := ih h
        simp only [List.mem_cons, not_or] at h1
        have hne : (d.content == c.content) = false := by
          simp only [beq_eq_false_iff_ne]
          intro he; exact h1.1 he.symm
        exact ⟨h1.2, by rw [List.find?_cons, hne]; exact h2⟩

/-- The dedup loop emits pairwise-distinct `content` strings. -/
theorem dedupChunks_contents_nodup : ∀ (l : List Chunk) (seen : List String),
    ((dedupChunks l seen).map Chunk.content).Nodup := by
  intro l
  induction l with
  | nil => intro seen; simp [dedupChunks]
  | cons d l ih =>
    intro seen
    by_cases hd : d.content ∈ seen
    · simpa only [dedupChunks, if_pos hd] using ih seen
    · simp only [dedupChunks, if_neg hd, List.map_cons, List.nodup_cons]
      refine ⟨?_, ih _⟩
      intro hmem
      obtain ⟨e, he, hec⟩ := List.mem_map.mp hmem
      have := (mem_dedupChunks he).1
      simp only [List.mem_cons, not_or] at this
      exact this.1 hec

/-- The packing loop keeps the running character total within budget. -/
theorem packChunks_le (mc : Nat) : ∀ (l : List Chunk) (t : Nat),
    t ≤ mc → t + sumLen (packChunks mc l t) ≤ mc := by
  intro l
  induction l with
  | nil => intro t ht; simpa [packChunks, sumLen] using ht
  | cons c l ih =>
    intro t ht
    by_cases h : t + c.content.length ≤ mc
    · have := ih (t + c.content.length) h
      simp only [packChunks, if_pos h, sumLen_cons]
      omega
    · simp only [packChunks, if_neg h, sumLen_nil]
      omega

/-- The packing loop returns a prefix of its input; packing stops either
at the end of the input or at the first chunk that would overflow the
budget, and nothing after that chunk is considered. -/
theorem packChunks_split (mc : Nat) : ∀ (l : List Chunk) (t : Nat),
    ∃ rest, l = packChunks mc l t ++ rest ∧
      (rest = [] ∨ ∃ c rest2, rest = c :: rest2 ∧
        mc < t + sumLen (packChunks mc l t) + c.content.length) := by
  intro l
  induction l with
  | nil => intro t; exact ⟨[], rfl, Or.inl rfl⟩
  | cons c l ih =>
    intro t
    by_cases h : t + c.content.length ≤ mc
    · obtain ⟨rest, hl, hrest⟩ := ih (t + c.content.length)
      refine ⟨rest, ?_, ?_⟩
      · simp only [packChunks, if_pos h, List.cons_append]
        exact congrArg (c :: ·) hl
      · rcases hrest with h0 | ⟨c', r2, hr, hlt⟩
        · exact Or.inl h0
        · refine Or.inr ⟨c', r2, hr, ?_⟩
          simp only [packChunks, if_pos h, sumLen_cons]
          omega
    · refine ⟨c :: l, by simp [packChunks, if_neg h], Or.inr ⟨c, l, rfl, ?_⟩⟩
      simp only [packChunks, if_neg h, sumLen_nil]
      omega

/-- `aggregate` returns a prefix of the sorted deduplicated sequence,
stopping exactly at the first over-budget chunk. -/
theorem aggregate_split (T : Nat) (m : RMap) :
    ∃ rest, sortStage m = aggregate T m ++ rest ∧
      (rest = [] ∨ ∃ c rest2, rest = c :: rest2 ∧
        T * 4 < sumLen (aggregate T m) + c.content.length) := by
  obtain ⟨rest, hl, hrest⟩ := packChunks_split (T * 4) (sortStage m) 0
  refine ⟨rest, hl, ?_⟩
  rcases hrest with h0 | ⟨c, r2, hr, hlt⟩
  · exact Or.inl h0
  · exact Or.inr ⟨c, r2, hr, by simpa using hlt⟩

theorem aggregate_sublist_sortStage (T : Nat) (m : RMap) :
    List.Sublist (aggregate T m) (sortStage m) := by
  obtain ⟨rest, hl, -⟩ := aggregate_split T m
  rw [hl]
  exact List.sublist_append_left _ _

theorem sortStage_perm (m : RMap) : List.Perm (sortStage m) (dedupStage m) :=
  List.perm_insertionSort simGE _

theorem sortStage_sorted (m : RMap) : (sortStage m).Pairwise simGE :=
  List.sorted_insertionSort simGE _

/-- Stability of one ordered insertion, phrased through filtering at a
fixed similarity key. -/
theorem filter_orderedInsert (q : ℚ) (a : Chunk) : ∀ (l : List Chunk),
    (List.orderedInsert simGE a l).filter (fun c => simKey c == q) =
      if simKey a == q then a :: l.filter (fun c => simKey c == q)
      else l.filter (fun c => simKey c == q) := by
  intro l
  induction l with
  | nil =>
    cases h : (simKey a == q) <;> simp [List.orderedInsert, List.filter_cons, h]
  | cons b l ih =>
    by_cases hab : simGE a b
    · rw [List.orderedInsert_of_le simGE l hab]
      cases h : (simKey a == q) <;> simp [List.filter_cons, h]
    · have hins : List.orderedInsert simGE a (b :: l) = b :: List.orderedInsert simGE a l := by
        simp [List.orderedInsert, hab]
      rw [hins]
      cases ha : (simKey a == q) with
      | false =>
        cases hb : (simKey b == q) <;> simp [List.filter_cons, hb, ih, ha]
      | true =>
        have hb : (simKey b == q) = false := by
          have haq : simKey a = q := by simpa using ha
          simp only [simGE, not_le] at hab
          simp only [beq_eq_false_iff_ne]
          intro hbq
          rw [haq] at hab
          exact absurd hbq (ne_of_gt hab)
        simp [List.filter_cons, hb, ih, ha]

/-- Stability of the stable descending sort: chunks of any fixed
similarity key appear in the sorted output in exactly their pre-sort
order. -/
theorem filter_sortChunks (q : ℚ) : ∀ (l : List Chunk),
    (sortChunks l).filter (fun c => simKey c == q) =
      l.filter (fun c => simKey c == q) := by
  intro l
  induction l with
  | nil => rfl
  | cons a l ih =>
    show (List.orderedInsert simGE a (List.insertionSort simGE l)).filter _ = _
    rw [filter_orderedInsert q a (List.insertionSort simGE l)]
    simp only [sortChunks] at ih
    cases ha : (simKey a == q) <;> simp [List.filter_cons, ha, ih]

end ContextAggregator

/-! ### Claim C1 -/

/-- A chunk one character too large for the wired 2048-token
(8192-character) budget; it appears under both sub-questions of the C1
counterexample map, so that map contains duplicate contents. -/
def exChunkA : Chunk :=
  { content := String.mk (List.replicate 8193 'a'), similarity := Option.some 1 }

def exChunkB : Chunk := { content := "bbbb", similarity := Option.some 0 }

def exMapC1 : RMap :=
  [(.str "q1", [exChunkA, exChunkB]), (.str "q2", [exChunkA])]

/-- C1 counterexample: the result map contains duplicate contents (the
over-budget chunk appears under both sub-questions), yet at the wired
budget `max_context_tokens = 2048` the content `"bbbb"` occurs in the
map but occurs zero times — not exactly once — in the output of
`aggregate`: the over-budget first chunk stops packing before anything
is emitted.  So "aggregate returns each distinct content exactly once"
fails as stated. -/
theorem claim1_counterexample :
    ContextAggregator.flattenChunks exMapC1 = [exChunkA, exChunkB, exChunkA] ∧
    "bbbb" ∈ (ContextAggregator.flattenChunks exMapC1).map Chunk.content ∧
    "bbbb" ∉ (ContextAggregator.aggregate 2048 exMapC1).map Chunk.content := by
  have hne : exChunkB.content ≠ exChunkA.content := by decide
  have hded : ContextAggregator.dedupStage exMapC1 = [exChunkA, exChunkB] := by
    show ContextAggregator.dedupChunks [exChunkA, exChunkB, exChunkA] [] = _
    simp only [ContextAggregator.dedupChunks]
    rw [if_neg (List.not_mem_nil exChunkA.content),
      if_neg (by simpa using hne),
      if_pos (List.mem_cons_of_mem _ (List.mem_cons_self _ _))]
  have hsort : ContextAggregator.sortStage exMapC1 = [exChunkA, exChunkB] := by
    unfold ContextAggregator.sortStage
    rw [hded]
    show List.orderedInsert ContextAggregator.simGE exChunkA [exChunkB] = _
    exact List.orderedInsert_of_le _ _ (by decide)
  have hA : exChunkA.content.length = 8193 := by
    show (String.mk (List.replicate 8193 'a')).length = 8193
    rw [show (String.mk (List.replicate 8193 'a')).length
      = (List.replicate 8193 'a').length from rfl]
    exact List.length_replicate 8193 'a'
  have hagg : ContextAggregator.aggregate 2048 exMapC1 = [] := by
    unfold ContextAggregator.aggregate
    rw [hsort]
    simp only [ContextAggregator.packChunks]
    rw [if_neg (by rw [hA]; omega)]
  refine ⟨rfl, ?_, ?_⟩
  · exact List.mem_cons_of_mem _ (List.mem_cons_self _ _)
  · rw [hagg]
    simp

/-- C1 (amended): for every budget and result map, the contents of the
chunks returned by `aggregate` are pairwise distinct (each distinct
content appears at most once), and every chunk that is returned is the
first-encountered occurrence of its content in iteration order over the
result map — its metadata and similarity are kept, even when a later
duplicate has a strictly higher similarity.  (Budget packing may drop
some distinct contents entirely, which is the only amendment.) -/
theorem claim1_dedup_first_seen_wins (T : Nat) (m : RMap) :
    ((ContextAggregator.aggregate T m).map Chunk.content).Nodup ∧
    ∀ c ∈ ContextAggregator.aggregate T m,
      (ContextAggregator.flattenChunks m).find? (fun x => x.content == c.content) =
        Option.some c := by
  constructor
  · have h1 := ContextAggregator.dedupChunks_contents_nodup (ContextAggregator.flattenChunks m) []
    have h2 : ((ContextAggregator.sortStage m).map Chunk.content).Nodup :=
      ((ContextAggregator.sortStage_perm m).map Chunk.content).nodup_iff.mpr h1
    exact List.Nodup.sublist
      (List.Sublist.map Chunk.content (ContextAggregator.aggregate_sublist_sortStage T m)) h2
  · intro c hc
    have hc2 : c ∈ ContextAggregator.sortStage m :=
      (ContextAggregator.aggregate_sublist_sortStage T m).subset hc
    have hc3 : c ∈ ContextAggregator.dedupStage m :=
      (ContextAggregator.sortStage_perm m).mem_iff.mp hc2
    exact (ContextAggregator.mem_dedupChunks hc3).2

/-- A duplicated content under two sub-questions, the later duplicate
with the strictly higher similarity: input for the C1 witness. -/
def wChunkLow : Chunk := { content := "dup", similarity := Option.some 0 }

def wChunkHigh : Chunk := { content := "dup", similarity := Option.some 1 }

def wMapC1 : RMap := [(.str "q1", [wChunkLow]), (.str "q2", [wChunkHigh])]

/-- Witness for C1: on a concrete map where the second sub-question
repeats a content with higher similarity, the amended theorem applies
and the first occurrence (`wChunkLow`) is the one kept. -/
theorem claim1_witness :
    ((ContextAggregator.aggregate 2048 wMapC1).map Chunk.content).Nodup ∧
    (ContextAggregator.flattenChunks wMapC1).find?
      (fun x => x.content == wChunkLow.content) = Option.some wChunkLow :=
  ⟨(claim1_dedup_first_seen_wins 2048 wMapC1).1,
   (claim1_dedup_first_seen_wins 2048 wMapC1).2 wChunkLow (by decide)⟩

/-! ### Claim C2 -/

/-- C2: for every budget `T` and result map, the total character length
of the packed chunks is at most `T * 4`, and packing is greedy with a
hard stop: the output is a prefix of the sorted deduplicated sequence,
and either that whole sequence was packed or the very next chunk after
the prefix is one whose inclusion would push the running total past
`T * 4` — no later chunk (however small) is included. -/
theorem claim2_budget_hard_stop (T : Nat) (m : RMap) :
    ContextAggregator.sumLen (ContextAggregator.aggregate T m) ≤ T * 4 ∧
    ∃ rest, ContextAggregator.sortStage m = ContextAggregator.aggregate T m ++ rest ∧
      (rest = [] ∨ ∃ c rest2, rest = c :: rest2 ∧
        T * 4 < ContextAggregator.sumLen (ContextAggregator.aggregate T m) +
          c.content.length) := by
  constructor
  · have h := ContextAggregator.packChunks_le (T * 4)
      (ContextAggregator.sortStage m) 0 (Nat.zero_le _)
    simpa [ContextAggregator.aggregate] using h
  · exact ContextAggregator.aggregate_split T m

/-! ### Claim C3 -/

/-- C3: for every budget and result map, the output of `aggregate` is
sorted by similarity key in descending order (`simGE`), and the chunks
of any fixed similarity key appear in the output in exactly the
relative order they had after deduplication (the sort is stable): the
key-`q` chunks of the output are a prefix of the key-`q` chunks of the
deduplicated sequence. -/
theorem claim3_sorted_descending_stable (T : Nat) (m : RMap) :
    (ContextAggregator.aggregate T m).Pairwise ContextAggregator.simGE ∧
    ∀ q : ℚ, ∃ rest,
      (ContextAggregator.dedupStage m).filter
          (fun c => ContextAggregator.simKey c == q) =
        (ContextAggregator.aggregate T m).filter
          (fun c => ContextAggregator.simKey c == q) ++ rest := by
  constructor
  · exact List.Pairwise.sublist (ContextAggregator.aggregate_sublist_sortStage T m)
      (ContextAggregator.sortStage_sorted m)
  · intro q
    obtain ⟨rest, hl, -⟩ := ContextAggregator.aggregate_split T m
    refine ⟨rest.filter (fun c => ContextAggregator.simKey c == q), ?_⟩
    have hs := ContextAggregator.filter_sortChunks q (ContextAggregator.dedupStage m)
    calc (ContextAggregator.dedupStage m).filter (fun c => ContextAggregator.simKey c == q)
        = (ContextAggregator.sortStage m).filter
            (fun c => ContextAggregator.simKey c == q) := hs.symm
      _ = (ContextAggregator.aggregate T m ++ rest).filter
            (fun c => ContextAggregator.simKey c == q) := by rw [← hl]
      _ = _ := List.filter_append _ _

/-! ### Claim C8 -/

namespace ContextAggregator

theorem contextParts_length : ∀ (n : Nat) (cs : List Chunk),
    (contextParts n cs).length = cs.length := by
  intro n cs
  induction cs generalizing n with
  | nil => rfl
  | cons c cs ih => simp [contextParts, ih]

theorem contextParts_get? : ∀ (n : Nat) (cs : List Chunk) (i : Nat),
    (contextParts n cs)[i]? = (cs[i]?).map (fun c => renderPart (n + i) c) := by
  intro n cs
  induction cs generalizing n with
  | nil => intro i; simp [contextParts]
  | cons c cs ih =>
    intro i
    cases i with
    | zero => simp [contextParts]
    | succ j =>
      simp only [contextParts, List.getElem?_cons_succ, ih (n + 1) j]
      have : n + 1 + j = n + (j + 1) := by omega
      rw [this]

end ContextAggregator

/-- C8: `format_context` of the empty sequence is the fixed sentinel;
for every chunk sequence, the rendered block list has one block per
input chunk (none is dropped), the `i`-th block is the `Source i+1`
block of the `i`-th input chunk (input order, fields per `renderPart`),
and for a non-empty input the result is those blocks joined by the
fixed separator. -/
theorem claim8_format_context (cs : List Chunk) :
    ContextAggregator.format_context [] = "No relevant context found." ∧
    (ContextAggregator.contextParts 1 cs).length = cs.length ∧
    (∀ i : Nat, (ContextAggregator.contextParts 1 cs)[i]? =
      (cs[i]?).map (fun c => ContextAggregator.renderPart (1 + i) c)) ∧
    (cs ≠ [] → ContextAggregator.format_context cs =
      String.intercalate "\n\n---\n\n" (ContextAggregator.contextParts 1 cs)) := by
  refine ⟨rfl, ContextAggregator.contextParts_length 1 cs,
    ContextAggregator.contextParts_get? 1 cs, ?_⟩
  intro hne
  simp [ContextAggregator.format_context, List.isEmpty_iff, hne]

/-- A fully populated chunk for the C8 witness. -/
def c8chunk : Chunk :=
  { content := "hello", document_name := Option.some "doc.pdf",
    page_number := Option.some 2, content_type := Option.some "text",
    similarity := Option.some 1 }

/-- Witness for C8 at the empty list and at a concrete one-chunk list. -/
theorem claim8_witness :
    ContextAggregator.format_context [] = "No relevant context found." ∧
    ContextAggregator.format_context [c8chunk] =
      String.intercalate "\n\n---\n\n" (ContextAggregator.contextParts 1 [c8chunk]) :=
  ⟨(claim8_format_context []).1,
   (claim8_format_context [c8chunk]).2.2.2 (by decide)⟩

/-! ### Claim C9 -/

/-- C9: on a successful model call, the `sources` field of the
synthesis result is exactly the order-preserving projection
`projSource` of the input chunk sequence — elementwise, the `i`-th
source is the projection of the `i`-th input chunk, with similarity
rounded to 3 decimal places — independent of the model's free-text
output, and `context_used` is the number of input chunks. -/
theorem claim9_sources_projection
    (llm : String → String → Except String String) (question context : String)
    (sources : List Chunk) (content : String)
    (h : llm context question = Except.ok content) :
    (AnswerSynthesizer.synthesize llm question context sources).sources =
      sources.map AnswerSynthesizer.projSource ∧
    (AnswerSynthesizer.synthesize llm question context sources).context_used =
      sources.length ∧
    ∀ i : Nat,
      ((AnswerSynthesizer.synthesize llm question context sources).sources)[i]? =
        (sources[i]?).map AnswerSynthesizer.projSource := by
  unfold AnswerSynthesizer.synthesize
  rw [h]
  exact ⟨rfl, rfl, fun i => by
    simp [AnswerSynthesizer.formatSources, List.getElem?_map]⟩

/-- A chunk with some metadata missing, for the C9 witness. -/
def c9chunk : Chunk :=
  { content := "x", document_name := Option.some "d.pdf",
    page_number := Option.none, content_type := Option.none,
    similarity := Option.some 1 }

/-- Witness for C9 at a concrete always-succeeding model oracle. -/
theorem claim9_witness :
    (AnswerSynthesizer.synthesize (fun _ _ => Except.ok "ans") "q" "ctx" [c9chunk]).sources
      = [c9chunk].map AnswerSynthesizer.projSource ∧
    (AnswerSynthesizer.synthesize (fun _ _ => Except.ok "ans") "q" "ctx" [c9chunk]).context_used
      = [c9chunk].length :=
  ⟨(claim9_sources_projection (fun _ _ => Except.ok "ans") "q" "ctx" [c9chunk] "ans" rfl).1,
   (claim9_sources_projection (fun _ _ => Except.ok "ans") "q" "ctx" [c9chunk] "ans" rfl).2.1⟩

/-! ### Lemmas about the retriever and the pipeline -/

namespace SemanticRetriever

/-- A fault raised by the embedder is not caught in `retrieve`. -/
theorem retrieve_embed_error {r : Retriever} {q : PyValue} {tk : Option Nat}
    {f : Option String} {e : String} (h : r.embed q = Except.error e) :
    retrieve r q tk f = Except.error e := by
  unfold retrieve
  rw [h]
  rfl

/-- A fault raised by the vector store is not caught in `retrieve`. -/
theorem retrieve_search_error {r : Retriever} {q : PyValue} {tk : Option Nat}
    {f : Option String} {e : String} {v : List ℚ} (h1 : r.embed q = Except.ok v)
    (h2 : r.search v (resolveTopK r tk) f r.similarity_threshold = Except.error e) :
    retrieve r q tk f = Except.error e := by
  unfold retrieve
  rw [h1]
  simpa using h2

/-- If retrieval fails for some query in the list, the whole loop of
`retrieve_for_multiple_queries` fails. -/
theorem rfmqLoop_error {r : Retriever} {tk : Option Nat} {f : Option String} :
    ∀ (qs : List PyValue) (m : RMap) (q : PyValue) (e : String),
    q ∈ qs → retrieve r q tk f = Except.error e →
    ∃ e3, rfmqLoop r tk f qs m = Except.error e3 := by
  intro qs
  induction qs with
  | nil => intro m q e hq _; exact absurd hq (List.not_mem_nil q)
  | cons q' qs ih =>
    intro m q e hq hr
    rcases List.mem_cons.mp hq with rfl | hq2
    · exact ⟨e, by simp only [rfmqLoop]; rw [hr]; rfl⟩
    · cases hr' : retrieve r q' tk f with
      | error e' => exact ⟨e', by simp only [rfmqLoop]; rw [hr']; rfl⟩
      | ok res =>
        cases hd : dictSet m q' res with
        | error e'' =>
          exact ⟨e'', by
            simp only [rfmqLoop]; rw [hr']; simp only [except_bind_ok]; rw [hd]; rfl⟩
        | ok m' =>
          obtain ⟨e3, h3⟩ := ih m' q e hq2 hr
          exact ⟨e3, by
            simp only [rfmqLoop]; rw [hr']; simp only [except_bind_ok]; rw [hd]
            simpa using h3⟩

/-- Fault propagation out of `retrieve_for_multiple_queries`. -/
theorem rfmq_error {r : Retriever} {tk : Option Nat} {f : Option String}
    {qs : List PyValue} {q : PyValue} {e : String}
    (hq : q ∈ qs) (hr : retrieve r q tk f = Except.error e) :
    ∃ e3, retrieve_for_multiple_queries r (.list qs) tk f = Except.error e3 := by
  obtain ⟨e3, h3⟩ := rfmqLoop_error qs [] q e hq hr
  refine ⟨e3, ?_⟩
  unfold retrieve_for_multiple_queries
  simpa [pyIter] using h3

end SemanticRetriever

/-- If the try-block raises, `query_documents` surfaces an HTTP 500
error response. -/
theorem queryDocuments_of_body_error {O : Oracles} {question : String}
    {filt : Option String} {e : String} (h : queryBody O question filt = Except.error e) :
    queryDocuments O question filt = Except.error (500, "Query failed: " ++ e) := by
  unfold queryDocuments
  rw [h]

/-- If the try-block completes, `query_documents` returns its response
unchanged. -/
theorem queryDocuments_of_body_ok {O : Oracles} {question : String}
    {filt : Option String} {r : QueryResponse} (h : queryBody O question filt = Except.ok r) :
    queryDocuments O question filt = Except.ok r := by
  unfold queryDocuments
  rw [h]

/-- When the analyzer's model call raised (so the question is classified
simple) and retrieval of the original question fails, the whole
try-block fails with the retrieval fault. -/
theorem queryBody_simple_retrieval_error {O : Oracles} {question : String}
    {filt : Option String} {am e : String}
    (hA : O.analyzeOutcome = CallOutcome.exn am)
    (hr : SemanticRetriever.retrieve O.retriever (PyValue.str question)
      Option.none filt = Except.error e) :
    queryBody O question filt = Except.error e := by
  have hm : SemanticRetriever.retrieve_for_multiple_queries O.retriever
      (PyValue.list [PyValue.str question]) Option.none filt = Except.error e := by
    unfold SemanticRetriever.retrieve_for_multiple_queries
    show SemanticRetriever.rfmqLoop O.retriever Option.none filt [PyValue.str question] [] = _
    simp only [SemanticRetriever.rfmqLoop]
    rw [hr]
    rfl
  unfold queryBody
  rw [hA]
  show (QueryAnalyzer.analyze (CallOutcome.exn am) |> fun analysis =>
    pyGetItem analysis "is_complex" >>= fun is_complex =>
    (if pyTruthy is_complex then QueryDecomposer.decompose question O.decomposeOutcome
      else PyValue.list [PyValue.str question]) |> fun sub_questions =>
    SemanticRetriever.retrieve_for_multiple_queries O.retriever sub_questions
      Option.none filt >>= _) = Except.error e
  show (SemanticRetriever.retrieve_for_multiple_queries O.retriever
      (PyValue.list [PyValue.str question]) Option.none filt >>= _) = Except.error e
  rw [hm]
  rfl

/-- When the analyzer's model call raised (simple path), retrieval of
the original question succeeds, and the synthesizer's model call fails,
the try-block completes normally with the degraded answer. -/
theorem queryBody_simple_synth_error {O : Oracles} {question : String}
    {filt : Option String} {am msg : String} {v : List ℚ} {cs : List Chunk}
    (hA : O.analyzeOutcome = CallOutcome.exn am)
    (hE : O.retriever.embed (PyValue.str question) = Except.ok v)
    (hS : O.retriever.search v O.retriever.top_k filt O.retriever.similarity_threshold
      = Except.ok cs)
    (hL : ∀ c q, O.synthLLM c q = Except.error msg) :
    queryBody O question filt = Except.ok
      { question := question
        answer := "Error generating answer: " ++ msg
        is_complex := false
        sub_questions := Option.none
        sources := []
        total_chunks_retrieved :=
          (ContextAggregator.aggregate O.max_context_tokens
            [(PyValue.str question, cs)]).length
        analysis_reasoning := PyValue.str ("Error: " ++ am) } := by
  have hret : SemanticRetriever.retrieve O.retriever (PyValue.str question)
      Option.none filt = Except.ok cs := by
    unfold SemanticRetriever.retrieve
    rw [hE]
    simpa using hS
  have hm : SemanticRetriever.retrieve_for_multiple_queries O.retriever
      (PyValue.list [PyValue.str question]) Option.none filt
      = Except.ok [(PyValue.str question, cs)] := by
    unfold SemanticRetriever.retrieve_for_multiple_queries
    show SemanticRetriever.rfmqLoop O.retriever Option.none filt [PyValue.str question] [] = _
    simp only [SemanticRetriever.rfmqLoop]
    rw [hret]
    rfl
  unfold queryBody
  rw [hA]
  show (SemanticRetriever.retrieve_for_multiple_queries O.retriever
      (PyValue.list [PyValue.str question]) Option.none filt >>= _) = _
  rw [hm]
  simp only [except_bind_ok]
  unfold AnswerSynthesizer.synthesize
  rw [hL]
  rfl

/-! ### Claim C5 -/

/-- C5: a fault from the embedder or the chunk store is not caught in
`retrieve`; a failing retrieval for any sub-question makes the whole
`retrieve_for_multiple_queries` fail; and such a fault reaching the
`/query` handler surfaces as an HTTP 500 error response, not as a
normal-shaped degraded answer. -/
theorem claim5_retrieval_fault_propagates
    (r : SemanticRetriever.Retriever) (q : PyValue) (tk : Option Nat)
    (f : Option String) (e : String) (v : List ℚ) (qs : List PyValue)
    (O : Oracles) (question : String) (filt : Option String) (am : String) :
    (r.embed q = Except.error e → SemanticRetriever.retrieve r q tk f = Except.error e) ∧
    (r.embed q = Except.ok v →
      r.search v (SemanticRetriever.resolveTopK r tk) f r.similarity_threshold
        = Except.error e →
      SemanticRetriever.retrieve r q tk f = Except.error e) ∧
    (q ∈ qs → SemanticRetriever.retrieve r q tk f = Except.error e →
      ∃ e3, SemanticRetriever.retrieve_for_multiple_queries r (.list qs) tk f
        = Except.error e3) ∧
    (O.analyzeOutcome = CallOutcome.exn am →
      O.retriever.embed (PyValue.str question) = Except.error e →
      queryDocuments O question filt = Except.error (500, "Query failed: " ++ e)) :=
  ⟨fun h => SemanticRetriever.retrieve_embed_error h,
   fun h1 h2 => SemanticRetriever.retrieve_search_error h1 h2,
   fun hq hr => SemanticRetriever.rfmq_error hq hr,
   fun hA hE => queryDocuments_of_body_error
     (queryBody_simple_retrieval_error hA (SemanticRetriever.retrieve_embed_error hE))⟩

/-- A retriever whose embedder always raises. -/
def downEmbedR : SemanticRetriever.Retriever :=
  { embed := fun _ => Except.error "embedder down"
    search := fun _ _ _ _ => Except.ok []
    top_k := 5
    similarity_threshold := 0 }

/-- A retriever whose vector store always raises. -/
def downSearchR : SemanticRetriever.Retriever :=
  { embed := fun _ => Except.ok [1]
    search := fun _ _ _ _ => Except.error "store down"
    top_k := 5
    similarity_threshold := 0 }

/-- A full oracle set whose embedder (and analyzer model) are down. -/
def downO : Oracles :=
  { analyzeOutcome := CallOutcome.exn "llm down"
    decomposeOutcome := CallOutcome.exn "llm down"
    retriever := downEmbedR
    synthLLM := fun _ _ => Except.ok "a"
    max_context_tokens := 2048 }

/-- Witness for C5: concrete failing collaborators make `retrieve`,
`retrieve_for_multiple_queries` and the whole `/query` cycle fail. -/
theorem claim5_witness :
    SemanticRetriever.retrieve downEmbedR (PyValue.str "w") Option.none Option.none
      = Except.error "embedder down" ∧
    SemanticRetriever.retrieve downSearchR (PyValue.str "w") Option.none Option.none
      = Except.error "store down" ∧
    (∃ e3, SemanticRetriever.retrieve_for_multiple_queries downEmbedR
      (.list [PyValue.str "w"]) Option.none Option.none = Except.error e3) ∧
    queryDocuments downO "w" Option.none
      = Except.error (500, "Query failed: embedder down") :=
  ⟨(claim5_retrieval_fault_propagates downEmbedR (PyValue.str "w") Option.none Option.none
      "embedder down" [1] [] downO "w" Option.none "llm down").1 rfl,
   (claim5_retrieval_fault_propagates downSearchR (PyValue.str "w") Option.none Option.none
      "store down" [1] [] downO "w" Option.none "llm down").2.1 rfl rfl,
   (claim5_retrieval_fault_propagates downEmbedR (PyValue.str "w") Option.none Option.none
      "embedder down" [1] [PyValue.str "w"] downO "w" Option.none "llm down").2.2.1
     (List.mem_cons_self _ _)
     ((claim5_retrieval_fault_propagates downEmbedR (PyValue.str "w") Option.none Option.none
      "embedder down" [1] [] downO "w" Option.none "llm down").1 rfl),
   (claim5_retrieval_fault_propagates downEmbedR (PyValue.str "w") Option.none Option.none
      "embedder down" [1] [] downO "w" Option.none "llm down").2.2.2 rfl rfl⟩

/-! ### Claim C7 -/

/-- C7: any fault from the synthesizer's model call yields the
well-formed degraded result `{answer: "Error generating answer: <msg>",
sources: [], context_used: 0}` instead of propagating; and when it
happens inside an otherwise-successful query cycle, the `/query`
handler still returns a normal response whose answer is the degraded
message and whose sources are empty. -/
theorem claim7_synthesis_fault_degrades
    (llm : String → String → Except String String) (question context : String)
    (sources : List Chunk) (msg : String) (O : Oracles) (filt : Option String)
    (am : String) (v : List ℚ) (cs : List Chunk) :
    (llm context question = Except.error msg →
      AnswerSynthesizer.synthesize llm question context sources =
        { answer := "Error generating answer: " ++ msg
          sources := []
          context_used := 0 }) ∧
    (O.analyzeOutcome = CallOutcome.exn am →
      O.retriever.embed (PyValue.str question) = Except.ok v →
      O.retriever.search v O.retriever.top_k filt O.retriever.similarity_threshold
        = Except.ok cs →
      (∀ c q, O.synthLLM c q = Except.error msg) →
      ∃ resp, queryDocuments O question filt = Except.ok resp ∧
        resp.answer = "Error generating answer: " ++ msg ∧
        resp.sources = []) := by
  constructor
  · intro h
    unfold AnswerSynthesizer.synthesize
    rw [h]
  · intro hA hE hS hL
    exact ⟨_, queryDocuments_of_body_ok (queryBody_simple_synth_error hA hE hS hL), rfl, rfl⟩

/-- A retriever returning one fixed chunk. -/
def okR : SemanticRetriever.Retriever :=
  { embed := fun _ => Except.ok [1]
    search := fun _ _ _ _ => Except.ok [{ content := "ctx", similarity := Option.some 1 }]
    top_k := 5
    similarity_threshold := 0 }

/-- Oracles where only the synthesizer's model call fails. -/
def synthDownO : Oracles :=
  { analyzeOutcome := CallOutcome.exn "llm down"
    decomposeOutcome := CallOutcome.exn "llm down"
    retriever := okR
    synthLLM := fun _ _ => Except.error "groq 500"
    max_context_tokens := 2048 }

/-- Witness for C7: a concrete failing synthesis oracle degrades the
result, and the pipeline still answers normally. -/
theorem claim7_witness :
    AnswerSynthesizer.synthesize (fun _ _ => Except.error "groq 500") "q" "ctx" []
      = { answer := "Error generating answer: groq 500"
          sources := []
          context_used := 0 } ∧
    (∃ resp, queryDocuments synthDownO "q" Option.none = Except.ok resp ∧
      resp.answer = "Error generating answer: groq 500" ∧
      resp.sources = []) :=
  ⟨(claim7_synthesis_fault_degrades (fun _ _ => Except.error "groq 500") "q" "ctx" []
      "groq 500" synthDownO Option.none "llm down" [1]
      [{ content := "ctx", similarity := Option.some 1 }]).1 rfl,
   (claim7_synthesis_fault_degrades (fun _ _ => Except.error "groq 500") "q" "ctx" []
      "groq 500" synthDownO Option.none "llm down" [1]
      [{ content := "ctx", similarity := Option.some 1 }]).2 rfl rfl rfl
     (fun _ _ => rfl)⟩

/-! ### Dict-semantics lemmas for claim C10 -/

namespace SemanticRetriever

/-- `pyKeyEq` against a string key holds exactly for that string key. -/
theorem pyKeyEq_str_iff (x : PyValue) (a : String) :
    pyKeyEq x (PyValue.str a) = true ↔ x = PyValue.str a := by
  cases x <;> simp [pyKeyEq]

/-- Replacing the value at a key does not disturb `find?` structure:
the found entry is the transformed original entry. -/
theorem find?_replace (key k0 : PyValue) (v : List Chunk) : ∀ m : RMap,
    (m.map (fun p => if pyKeyEq p.1 key then (p.1, v) else p)).find?
        (fun p => pyKeyEq p.1 k0)
      = (m.find? (fun p => pyKeyEq p.1 k0)).map
          (fun p => if pyKeyEq p.1 key then (p.1, v) else p) := by
  intro m
  induction m with
  | nil => rfl
  | cons p m ih =>
    cases h : pyKeyEq p.1 k0 with
    | true => cases hk : pyKeyEq p.1 key <;> simp [List.find?_cons, h, hk]
    | false => cases hk : pyKeyEq p.1 key <;> simp [List.find?_cons, h, hk, ih]

/-- Python-dict assignment then lookup at the same (string) key yields
the assigned value. -/
theorem dictLookup_setPure_self (m : RMap) (s : String) (v : List Chunk) :
    dictLookup (dictSetPure m (PyValue.str s) v) (PyValue.str s) = Option.some v := by
  unfold dictSetPure dictLookup
  cases h : m.any (fun p => pyKeyEq p.1 (PyValue.str s)) with
  | true =>
    simp only [h, if_true]
    rw [find?_replace]
    have hs : (m.find? (fun p => pyKeyEq p.1 (PyValue.str s))).isSome := by
      rw [List.find?_isSome]
      exact List.any_eq_true.mp h
    obtain ⟨p, hp⟩ := Option.isSome_iff_exists.mp hs
    rw [hp]
    simp [List.find?_some hp]
  | false =>
    simp only [h, Bool.false_eq_true, if_false]
    rw [List.find?_append]
    have hnone : m.find? (fun p => pyKeyEq p.1 (PyValue.str s)) = Option.none :=
      List.find?_eq_none.mpr (List.any_eq_false.mp h)
    rw [hnone]
    simp [pyKeyEq]

/-- Python-dict assignment leaves lookups at other string keys alone. -/
theorem dictLookup_setPure_other (m : RMap) (s k : String) (hne : k ≠ s)
    (v : List Chunk) :
    dictLookup (dictSetPure m (PyValue.str s) v) (PyValue.str k)
      = dictLookup m (PyValue.str k) := by
  unfold dictSetPure dictLookup
  cases h : m.any (fun p => pyKeyEq p.1 (PyValue.str s)) with
  | true =>
    simp only [h, if_true]
    rw [find?_replace]
    cases hf : m.find? (fun p => pyKeyEq p.1 (PyValue.str k)) with
    | none => simp
    | some p =>
      have hpk : pyKeyEq p.1 (PyValue.str k) = true := by
        have := List.find?_some hf
        simpa using this
      have hk : p.1 = PyValue.str k := (pyKeyEq_str_iff _ _).mp hpk
      have hks : pyKeyEq p.1 (PyValue.str s) = false := by
        rw [hk]
        have : k ≠ s := hne
        simp [pyKeyEq, this]
      simp [hks]
  | false =>
    simp only [h, Bool.false_eq_true, if_false]
    rw [List.find?_append]
    have hcond : pyKeyEq (PyValue.str s) (PyValue.str k) = false := by
      have : s ≠ k := fun he => hne he.symm
      simp [pyKeyEq, this]
    have htail : ([(PyValue.str s, v)] : RMap).find?
        (fun p => pyKeyEq p.1 (PyValue.str k)) = Option.none := by
      simp [List.find?_cons, hcond]
    rw [htail]
    cases m.find? (fun p => pyKeyEq p.1 (PyValue.str k)) <;> rfl

/-- When the key is already present, assignment keeps the key list. -/
theorem keys_setPure_replace (m : RMap) (s : String) (v : List Chunk)
    (hc : m.any (fun p => pyKeyEq p.1 (PyValue.str s)) = true) :
    (dictSetPure m (PyValue.str s) v).map Prod.fst = m.map Prod.fst := by
  unfold dictSetPure
  simp only [hc, if_true]
  rw [List.map_map]
  apply List.map_congr_left
  intro p _
  cases hk : pyKeyEq p.1 (PyValue.str s) <;> simp [Function.comp, hk]

/-- When the key is absent, assignment appends it. -/
theorem keys_setPure_append (m : RMap) (s : String) (v : List Chunk)
    (hc : m.any (fun p => pyKeyEq p.1 (PyValue.str s)) = false) :
    (dictSetPure m (PyValue.str s) v).map Prod.fst
      = m.map Prod.fst ++ [PyValue.str s] := by
  unfold dictSetPure
  simp [hc]

/-- Key membership after a Python-dict assignment. -/
theorem mem_keys_setPure (m : RMap) (s : String) (v : List Chunk) (x : PyValue) :
    x ∈ (dictSetPure m (PyValue.str s) v).map Prod.fst ↔
      x ∈ m.map Prod.fst ∨ x = PyValue.str s := by
  cases hc : m.any (fun p => pyKeyEq p.1 (PyValue.str s)) with
  | true =>
    rw [keys_setPure_replace m s v hc]
    constructor
    · exact Or.inl
    · rintro (hx | rfl)
      · exact hx
      · obtain ⟨p, hp, hpk⟩ := List.any_eq_true.mp hc
        have := (pyKeyEq_str_iff _ _).mp hpk
        exact this ▸ List.mem_map.mpr ⟨p, hp, rfl⟩
  | false =>
    rw [keys_setPure_append m s v hc]
    simp

/-- Assignment of a fresh key preserves distinctness of the key list. -/
theorem keys_nodup_setPure (m : RMap) (s : String) (v : List Chunk)
    (hnd : (m.map Prod.fst).Nodup) :
    ((dictSetPure m (PyValue.str s) v).map Prod.fst).Nodup := by
  cases hc : m.any (fun p => pyKeyEq p.1 (PyValue.str s)) with
  | true => rw [keys_setPure_replace m s v hc]; exact hnd
  | false =>
    rw [keys_setPure_append m s v hc]
    rw [List.nodup_append]
    refine ⟨hnd, List.nodup_singleton _, ?_⟩
    intro x hx hx1
    rw [List.mem_singleton] at hx1
    subst hx1
    obtain ⟨p, hp, hpk⟩ := List.mem_map.mp hx
    have : pyKeyEq p.1 (PyValue.str s) = true := (pyKeyEq_str_iff _ _).mpr hpk
    exact absurd this (by simpa using List.any_eq_false.mp hc p hp)

/-- The pure fold of the retrieval loop when every retrieval succeeds:
one Python-dict assignment per query string, in list order. -/
def strFold (vals : String → List Chunk) : List String → RMap → RMap
  | [], m => m
  | s :: qs, m => strFold vals qs (dictSetPure m (PyValue.str s) (vals s))

/-- Lookup after the fold: a key that occurs in the query list maps to
its (deterministic) retrieval result — the value written by the last
assignment for that key; other keys are untouched. -/
theorem strFold_lookup (vals : String → List Chunk) :
    ∀ (qs : List String) (m : RMap) (k : String),
    dictLookup (strFold vals qs m) (PyValue.str k) =
      if k ∈ qs then Option.some (vals k) else dictLookup m (PyValue.str k) := by
  intro qs
  induction qs with
  | nil => intro m k; simp [strFold]
  | cons s qs ih =>
    intro m k
    simp only [strFold]
    rw [ih]
    by_cases hk : k ∈ qs
    · simp [hk, List.mem_cons]
    · by_cases hks : k = s
      · subst hks
        simp [hk, dictLookup_setPure_self]
      · simp [hk, hks, dictLookup_setPure_other m s k hks]

/-- Key membership after the fold. -/
theorem strFold_mem_keys (vals : String → List Chunk) :
    ∀ (qs : List String) (m : RMap) (x : PyValue),
    x ∈ (strFold vals qs m).map Prod.fst ↔
      x ∈ m.map Prod.fst ∨ ∃ s ∈ qs, x = PyValue.str s := by
  intro qs
  induction qs with
  | nil => intro m x; simp [strFold]
  | cons s qs ih =>
    intro m x
    simp only [strFold]
    rw [ih, mem_keys_setPure]
    constructor
    · rintro ((hx | rfl) | ⟨t, ht, rfl⟩)
      · exact Or.inl hx
      · exact Or.inr ⟨s, List.mem_cons_self s qs, rfl⟩
      · exact Or.inr ⟨t, List.mem_cons_of_mem s ht, rfl⟩
    · rintro (hx | ⟨t, ht, rfl⟩)
      · exact Or.inl (Or.inl hx)
      · rcases List.mem_cons.mp ht with rfl | ht2
        · exact Or.inl (Or.inr rfl)
        · exact Or.inr ⟨t, ht2, rfl⟩

/-- The fold keeps the key list duplicate-free. -/
theorem strFold_keys_nodup (vals : String → List Chunk) :
    ∀ (qs : List String) (m : RMap),
    (m.map Prod.fst).Nodup → ((strFold vals qs m).map Prod.fst).Nodup := by
  intro qs
  induction qs with
  | nil => intro m h; exact h
  | cons s qs ih =>
    intro m h
    exact ih _ (keys_nodup_setPure m s (vals s) h)

/-- When every retrieval succeeds, the retrieval loop computes exactly
the pure fold of Python-dict assignments. -/
theorem rfmqLoop_ok (r : Retriever) (tk : Option Nat) (f : Option String)
    (vals : String → List Chunk) :
    ∀ (qs : List String) (m : RMap),
    (∀ s ∈ qs, retrieve r (PyValue.str s) tk f = Except.ok (vals s)) →
    rfmqLoop r tk f (qs.map PyValue.str) m = Except.ok (strFold vals qs m) := by
  intro qs
  induction qs with
  | nil => intro m _; rfl
  | cons s qs ih =>
    intro m hv
    simp only [List.map_cons, rfmqLoop]
    rw [hv s (List.mem_cons_self s qs)]
    simp only [except_bind_ok]
    rw [show dictSet m (PyValue.str s) (vals s)
      = Except.ok (dictSetPure m (PyValue.str s) (vals s)) from rfl]
    simp only [except_bind_ok, strFold]
    exact ih _ (fun t ht => hv t (List.mem_cons_of_mem s ht))

end SemanticRetriever

/-! ### Claim C10 -/

/-- C10: for a list of query strings whose retrievals all succeed,
`retrieve_for_multiple_queries` returns a map whose key set is exactly
the set of distinct query strings (duplicates collapse onto a single
key, so the map can be shorter than the list — strictly shorter when
the list has a duplicate), the key of every query in the list maps to
its retrieval result (the value written by the last assignment for that
key — the final clause shows the raw overwrite semantics of the
underlying dict assignment), and a query that retrieved zero chunks
still occupies its key with the empty sequence (take `vals k = []`). -/
theorem claim10_rfmq_dict_semantics
    (r : SemanticRetriever.Retriever) (tk : Option Nat) (f : Option String)
    (qs : List String) (vals : String → List Chunk)
    (hv : ∀ s ∈ qs, SemanticRetriever.retrieve r (PyValue.str s) tk f
      = Except.ok (vals s)) :
    ∃ m, SemanticRetriever.retrieve_for_multiple_queries r
        (PyValue.list (qs.map PyValue.str)) tk f = Except.ok m ∧
      (∀ k : String, PyValue.str k ∈ m.map Prod.fst ↔ k ∈ qs) ∧
      (m.map Prod.fst).Nodup ∧
      (∀ k ∈ qs, dictLookup m (PyValue.str k) = Option.some (vals k)) ∧
      m.length = qs.dedup.length ∧
      m.length ≤ qs.length ∧
      (¬ qs.Nodup → m.length < qs.length) ∧
      (∀ (m0 : RMap) (s : String) (v1 v2 : List Chunk),
        dictLookup (dictSetPure (dictSetPure m0 (PyValue.str s) v1)
          (PyValue.str s) v2) (PyValue.str s) = Option.some v2) := by
  have hstr_inj : Function.Injective PyValue.str := fun a b h => by injection h
  have hmem : ∀ x, x ∈ (SemanticRetriever.strFold vals qs []).map Prod.fst ↔
      x ∈ qs.dedup.map PyValue.str := by
    intro x
    rw [SemanticRetriever.strFold_mem_keys]
    simp only [List.map_nil, List.not_mem_nil, false_or, List.mem_map, List.mem_dedup]
    constructor
    · rintro ⟨s, hs, rfl⟩; exact ⟨s, hs, rfl⟩
    · rintro ⟨s, hs, rfl⟩; exact ⟨s, hs, rfl⟩
  have hK : ((SemanticRetriever.strFold vals qs []).map Prod.fst).Nodup :=
    SemanticRetriever.strFold_keys_nodup vals qs [] (by simp)
  have hD : (qs.dedup.map PyValue.str).Nodup :=
    List.Nodup.map hstr_inj (List.nodup_dedup qs)
  have hlenK : ((SemanticRetriever.strFold vals qs []).map Prod.fst).length
      = (qs.dedup.map PyValue.str).length := by
    have h1 := (hK.subperm (fun x hx => (hmem x).mp hx)).length_le
    have h2 := (hD.subperm (fun x hx => (hmem x).mpr hx)).length_le
    omega
  have hlen : (SemanticRetriever.strFold vals qs []).length = qs.dedup.length := by
    rw [List.length_map, List.length_map] at hlenK
    exact hlenK
  have hdle : qs.dedup.length ≤ qs.length := (List.dedup_sublist qs).length_le
  refine ⟨SemanticRetriever.strFold vals qs [], ?_, ?_, hK, ?_, hlen, ?_, ?_, ?_⟩
  · unfold SemanticRetriever.retrieve_for_multiple_queries
    show SemanticRetriever.rfmqLoop r tk f (qs.map PyValue.str) [] = _
    exact SemanticRetriever.rfmqLoop_ok r tk f vals qs [] hv
  · intro k
    rw [hmem]
    simp only [List.mem_map, List.mem_dedup]
    constructor
    · rintro ⟨s, hs, he⟩
      cases hstr_inj he
      exact hs
    · intro hk; exact ⟨k, hk, rfl⟩
  · intro k hk
    rw [SemanticRetriever.strFold_lookup]
    simp [hk]
  · omega
  · intro hnd
    have hne : qs.dedup.length ≠ qs.length := by
      intro he
      have := (List.dedup_sublist qs).eq_of_length he
      exact hnd (this ▸ List.nodup_dedup qs)
    omega
  · intro m0 s v1 v2
    exact SemanticRetriever.dictLookup_setPure_self _ s v2

/-- The single chunk served by the C10 witness retriever. -/
def c10chunk : Chunk := { content := "cc", similarity := Option.some 1 }

/-- A retriever that serves `[c10chunk]` for one-character queries and
nothing for the rest. -/
def c10r : SemanticRetriever.Retriever :=
  { embed := fun q =>
      match q with
      | .str s => Except.ok [(s.length : ℚ)]
      | _ => Except.ok []
    search := fun v _ _ _ =>
      if v = [(1 : ℚ)] then Except.ok [c10chunk] else Except.ok []
    top_k := 5
    similarity_threshold := 0 }

/-- The retrieval results of the C10 witness retriever, per query. -/
def c10vals : String → List Chunk :=
  fun s => if s.length = 1 then [c10chunk] else []

/-- Witness for C10: the query list `["a", "bb", "a"]` has a duplicate,
so the returned map has two keys, each holding its query's result —
the empty result for `"bb"` still occupies its key. -/
theorem claim10_witness :
    ∃ m, SemanticRetriever.retrieve_for_multiple_queries c10r
        (PyValue.list ((["a", "bb", "a"] : List String).map PyValue.str))
        Option.none Option.none = Except.ok m ∧
      (∀ k : String, PyValue.str k ∈ m.map Prod.fst ↔
        k ∈ (["a", "bb", "a"] : List String)) ∧
      (m.map Prod.fst).Nodup ∧
      (∀ k ∈ (["a", "bb", "a"] : List String),
        dictLookup m (PyValue.str k) = Option.some (c10vals k)) ∧
      m.length = (["a", "bb", "a"] : List String).dedup.length ∧
      m.length ≤ (["a", "bb", "a"] : List String).length ∧
      (¬ (["a", "bb", "a"] : List String).Nodup →
        m.length < (["a", "bb", "a"] : List String).length) ∧
      (∀ (m0 : RMap) (s : String) (v1 v2 : List Chunk),
        dictLookup (dictSetPure (dictSetPure m0 (PyValue.str s) v1)
          (PyValue.str s) v2) (PyValue.str s) = Option.some v2) :=
  claim10_rfmq_dict_semantics c10r Option.none Option.none ["a", "bb", "a"] c10vals
    (by
      intro s hs
      simp only [List.mem_cons, List.not_mem_nil, or_false] at hs
      rcases hs with rfl | rfl | rfl <;> rfl)

/-! ### Claim C4 -/

/-- C4 counterexample: the model response `"{}"` parses as JSON but is
not the expected `{"sub_questions": [...]}` structure; `decompose`
returns the empty list — not `[q]`, and not non-empty — because
`result.get("sub_questions", [])` silently defaults. -/
theorem claim4_counterexample :
    QueryDecomposer.decompose "q" (CallOutcome.content (Except.ok (PyValue.dict [])))
      = PyValue.list [] ∧
    PyValue.list ([] : List PyValue) ≠ PyValue.list [PyValue.str "q"] := by
  refine ⟨rfl, ?_⟩
  intro h
  injection h with h'
  simp at h'

/-- C4 (amended): `decompose q` returns exactly `[q]` when the model
call raises, when the response is not valid JSON, when the parsed value
is not an object, and when the object's `sub_questions` value does not
support `len()`; but when the parsed value is an object whose
`sub_questions` key is absent, it returns the empty list (the silent
default), so the result is not always non-empty and a structurally
invalid-but-parseable response does not yield `[q]`. -/
theorem claim4_decompose_fallback (q : String) (o : CallOutcome) :
    ((∃ m, o = CallOutcome.exn m) ∨ (∃ e, o = CallOutcome.content (Except.error e)) →
      QueryDecomposer.decompose q o = PyValue.list [PyValue.str q]) ∧
    (∀ v, o = CallOutcome.content (Except.ok v) → (∀ d, v ≠ PyValue.dict d) →
      QueryDecomposer.decompose q o = PyValue.list [PyValue.str q]) ∧
    (∀ d, o = CallOutcome.content (Except.ok (PyValue.dict d)) →
      pyDictGet d "sub_questions" = Option.none →
      QueryDecomposer.decompose q o = PyValue.list []) ∧
    (∀ d sq, o = CallOutcome.content (Except.ok (PyValue.dict d)) →
      pyDictGet d "sub_questions" = Option.some sq → pyHasLen sq = false →
      QueryDecomposer.decompose q o = PyValue.list [PyValue.str q]) := by
  refine ⟨?_, ?_, ?_, ?_⟩
  · rintro (⟨m, rfl⟩ | ⟨e, rfl⟩) <;> rfl
  · rintro v rfl hv
    cases v with
    | dict d => exact absurd rfl (hv d)
    | none => rfl
    | bool b => rfl
    | int n => rfl
    | str s => rfl
    | list l => rfl
  · rintro d rfl hget
    simp [QueryDecomposer.decompose, hget, pyHasLen]
  · rintro d sq rfl hget hlen
    simp [QueryDecomposer.decompose, hget, hlen]

/-- Witness for C4: each fallback clause applied at a concrete outcome. -/
theorem claim4_witness :
    QueryDecomposer.decompose "w" (CallOutcome.exn "boom")
      = PyValue.list [PyValue.str "w"] ∧
    QueryDecomposer.decompose "w" (CallOutcome.content (Except.error "bad json"))
      = PyValue.list [PyValue.str "w"] ∧
    QueryDecomposer.decompose "w" (CallOutcome.content (Except.ok (PyValue.list [])))
      = PyValue.list [PyValue.str "w"] ∧
    QueryDecomposer.decompose "w"
        (CallOutcome.content (Except.ok (PyValue.dict [("note", PyValue.int 1)])))
      = PyValue.list [] ∧
    QueryDecomposer.decompose "w"
        (CallOutcome.content (Except.ok (PyValue.dict [("sub_questions", PyValue.int 5)])))
      = PyValue.list [PyValue.str "w"] :=
  ⟨(claim4_decompose_fallback "w" (CallOutcome.exn "boom")).1 (Or.inl ⟨_, rfl⟩),
   (claim4_decompose_fallback "w" (CallOutcome.content (Except.error "bad json"))).1
     (Or.inr ⟨_, rfl⟩),
   (claim4_decompose_fallback "w" (CallOutcome.content (Except.ok (PyValue.list [])))).2.1
     (PyValue.list []) rfl (fun d h => by injection h),
   (claim4_decompose_fallback "w"
       (CallOutcome.content (Except.ok (PyValue.dict [("note", PyValue.int 1)])))).2.2.1
     [("note", PyValue.int 1)] rfl rfl,
   (claim4_decompose_fallback "w"
       (CallOutcome.content (Except.ok (PyValue.dict [("sub_questions", PyValue.int 5)])))).2.2.2
     [("sub_questions", PyValue.int 5)] (PyValue.int 5) rfl rfl rfl⟩

/-! ### Claim C6 -/

/-- The expected structured Classifier payload per the spec's format
`{"is_complex": true/false, "reasoning": "brief explanation"}`: a JSON
object whose `is_complex` value is a boolean and whose `reasoning`
value is a string.  This definition follows the spec's words, for
comparison with the code-modelled `analyze`. -/
def specAnalysisShape : PyValue → Bool
  | .dict d =>
    (match pyDictGet d "is_complex" with
     | Option.some (.bool _) => true
     | _ => false) &&
    (match pyDictGet d "reasoning" with
     | Option.some (.str _) => true
     | _ => false)
  | _ => false

/-- Whether a parsed payload is an object carrying both keys — the only
thing the code's success path actually checks (by subscripting them in
the log line). -/
def hasAnalysisKeys : PyValue → Bool
  | .dict d => (pyDictGet d "is_complex").isSome && (pyDictGet d "reasoning").isSome
  | _ => false

/-- The payload for the C6 counterexample: an object with both keys but
a non-boolean `is_complex`. -/
def c6payload : PyValue :=
  PyValue.dict [("is_complex", PyValue.str "maybe"), ("reasoning", PyValue.str "r")]

/-- C6 counterexample: the payload does not conform to the expected
structure (`is_complex` is not a boolean), yet `analyze` returns it
unchanged, so the result's `is_complex` is `"maybe"`, not `false`. -/
theorem claim6_counterexample :
    specAnalysisShape c6payload = false ∧
    QueryAnalyzer.analyze (CallOutcome.content (Except.ok c6payload)) = c6payload ∧
    pyGetItem (QueryAnalyzer.analyze (CallOutcome.content (Except.ok c6payload)))
        "is_complex" = Except.ok (PyValue.str "maybe") ∧
    PyValue.str "maybe" ≠ PyValue.bool false := by
  refine ⟨rfl, rfl, rfl, ?_⟩
  intro h
  injection h

/-- C6 (amended): `analyze` returns `is_complex = false` together with
a diagnostic reasoning whenever the model call raises, the payload is
not valid JSON, or the parsed value is not an object carrying both the
`is_complex` and `reasoning` keys; it always returns an object carrying
both keys (so it never raises past its boundary); but an object
carrying both keys is returned unchanged, even when its `is_complex`
value is not a boolean. -/
theorem claim6_analyze_safe_default (o : CallOutcome) :
    (∃ d, QueryAnalyzer.analyze o = PyValue.dict d ∧
      (pyDictGet d "is_complex").isSome = true ∧
      (pyDictGet d "reasoning").isSome = true) ∧
    (∀ m, o = CallOutcome.exn m →
      QueryAnalyzer.analyze o = QueryAnalyzer.mkDefault ("Error: " ++ m)) ∧
    (∀ e, o = CallOutcome.content (Except.error e) →
      QueryAnalyzer.analyze o = QueryAnalyzer.mkDefault "Failed to parse response") ∧
    (∀ v, o = CallOutcome.content (Except.ok v) → hasAnalysisKeys v = false →
      pyGetItem (QueryAnalyzer.analyze o) "is_complex" = Except.ok (PyValue.bool false)) ∧
    (∀ v, o = CallOutcome.content (Except.ok v) → hasAnalysisKeys v = true →
      QueryAnalyzer.analyze o = v) := by
  refine ⟨?_, ?_, ?_, ?_, ?_⟩
  · cases o with
    | exn m => exact ⟨_, rfl, rfl, rfl⟩
    | content p =>
      cases p with
      | error e => exact ⟨_, rfl, rfl, rfl⟩
      | ok v =>
        cases v with
        | dict d =>
          simp only [QueryAnalyzer.analyze]
          cases h1 : pyDictGet d "is_complex" with
          | none => exact ⟨_, rfl, rfl, rfl⟩
          | some x =>
            cases h2 : pyDictGet d "reasoning" with
            | none => exact ⟨_, rfl, rfl, rfl⟩
            | some y => exact ⟨d, rfl, by simp [h1], by simp [h2]⟩
        | none => exact ⟨_, rfl, rfl, rfl⟩
        | bool b => exact ⟨_, rfl, rfl, rfl⟩
        | int n => exact ⟨_, rfl, rfl, rfl⟩
        | str s => exact ⟨_, rfl, rfl, rfl⟩
        | list l => exact ⟨_, rfl, rfl, rfl⟩
  · rintro m rfl; rfl
  · rintro e rfl; rfl
  · rintro v rfl hv
    cases v with
    | dict d =>
      simp only [hasAnalysisKeys, Bool.and_eq_false_iff] at hv
      simp only [QueryAnalyzer.analyze]
      cases h1 : pyDictGet d "is_complex" with
      | none => rfl
      | some x =>
        cases h2 : pyDictGet d "reasoning" with
        | none => rfl
        | some y => simp [h1, h2, Option.isSome] at hv
    | none => rfl
    | bool b => rfl
    | int n => rfl
    | str s => rfl
    | list l => rfl
  · rintro v rfl hv
    cases v with
    | dict d =>
      simp only [hasAnalysisKeys, Bool.and_eq_true] at hv
      obtain ⟨h1, h2⟩ := hv
      obtain ⟨x, hx⟩ := Option.isSome_iff_exists.mp h1
      obtain ⟨y, hy⟩ := Option.isSome_iff_exists.mp h2
      simp [QueryAnalyzer.analyze, hx, hy]
    | none => simp [hasAnalysisKeys] at hv
    | bool b => simp [hasAnalysisKeys] at hv
    | int n => simp [hasAnalysisKeys] at hv
    | str s => simp [hasAnalysisKeys] at hv
    | list l => simp [hasAnalysisKeys] at hv

/-- A conforming payload for the C6 witness. -/
def c6good : PyValue :=
  PyValue.dict [("is_complex", PyValue.bool true), ("reasoning", PyValue.str "two intents")]

/-- Witness for C6: the safe-default clauses applied at concrete
outcomes (raising call, invalid JSON, non-conforming value, and a
conforming object returned unchanged). -/
theorem claim6_witness :
    QueryAnalyzer.analyze (CallOutcome.exn "x")
      = QueryAnalyzer.mkDefault "Error: x" ∧
    QueryAnalyzer.analyze (CallOutcome.content (Except.error "e"))
      = QueryAnalyzer.mkDefault "Failed to parse response" ∧
    pyGetItem (QueryAnalyzer.analyze (CallOutcome.content (Except.ok (PyValue.list []))))
        "is_complex" = Except.ok (PyValue.bool false) ∧
    QueryAnalyzer.analyze (CallOutcome.content (Except.ok c6good)) = c6good :=
  ⟨(claim6_analyze_safe_default (CallOutcome.exn "x")).2.1 "x" rfl,
   (claim6_analyze_safe_default (CallOutcome.content (Except.error "e"))).2.2.1 "e" rfl,
   (claim6_analyze_safe_default (CallOutcome.content (Except.ok (PyValue.list [])))).2.2.2.1
     (PyValue.list []) rfl rfl,
   (claim6_analyze_safe_default (CallOutcome.content (Except.ok c6good))).2.2.2.2
     c6good rfl rfl⟩

end Rag
